import Mathlib

/-!
Verification development for the gitlab-branch-ruler repository.

The repository drives a GitLab-compatible REST API: it walks a group tree,
lists projects and subgroups page by page, selects candidate branches and
reconciles each branch's protection rule.  We embed the decision logic of
the two client variants found in the sources:

* the variant with the PATCH/verify reconciler
  (`EnsureBranchProtection`, `protectionHasLevel`,
  `deleteAndRecreateProtection`, a default-branch-only project loop), and
* the variant in `internal/gitlab/client.go` (namespace `Plain`):
  `BranchExists`, the conventional-set candidate list, the
  create/delete/re-create reconciler and the recursive group walker.

HTTP is modelled by a stateful server oracle: a `Server σ` maps a state and
a request to an optional response (`none` is a transport failure) and a
successor state.  Every embedded operation returns its result, the final
server state and the list of requests it issued, so that ordering and
escalation properties are facts about the emitted trace.
-/

/-- Byte-level prefix test on character lists (mirrors comparing raw bytes). -/
def isPrefixB : List Char → List Char → Bool
  | [], _ => true
  | _ :: _, [] => false
  | a :: as, b :: bs => a == b && isPrefixB as bs

/-- Byte-level substring test, mirroring Go's `bytes.Contains`. -/
def containsSub (pat : List Char) : List Char → Bool
  | [] => isPrefixB pat []
  | c :: cs => isPrefixB pat (c :: cs) || containsSub pat cs

/-- `strContains s pat` is true when `pat` occurs inside `s`
(the shape of `bytes.Contains(data, pattern)`). -/
def strContains (s pat : String) : Bool :=
  containsSub pat.data s.data

theorem isPrefixB_append (pat t : List Char) : isPrefixB pat (pat ++ t) = true := by
  induction pat with
  | nil => rfl
  | cons a as ih => simp [isPrefixB, ih]

theorem containsSub_of_isPrefixB {pat s : List Char} (h : isPrefixB pat s = true) :
    containsSub pat s = true := by
  cases s with
  | nil => simpa [containsSub] using h
  | cons c cs => simp [containsSub, h]

theorem containsSub_cons {pat s : List Char} (c : Char) (h : containsSub pat s = true) :
    containsSub pat (c :: s) = true := by
  simp [containsSub, h]

theorem containsSub_append_left {pat s : List Char} (pre : List Char)
    (h : containsSub pat s = true) : containsSub pat (pre ++ s) = true := by
  induction pre with
  | nil => simpa using h
  | cons c cs ih => simpa using containsSub_cons c ih

theorem containsSub_sandwich (pre pat suf : List Char) :
    containsSub pat (pre ++ (pat ++ suf)) = true :=
  containsSub_append_left pre (containsSub_of_isPrefixB (isPrefixB_append pat suf))

theorem string_data_append (a b : String) : (a ++ b).data = a.data ++ b.data := rfl

/-! ## Core data model -/

/-- One HTTP response as the clients see it: status code and raw body. -/
structure HttpResult where
  status : Nat
  body : String
deriving DecidableEq, Repr

/-- The protection payload sent by the clients: branch name and the two
desired access levels (`protectPayload` / the form values in the sources). -/
structure Payload where
  name : String
  pushAccessLevel : Int
  mergeAccessLevel : Int
deriving DecidableEq, Repr

/-- The requests the clients issue against one project.
`post` targets the protected-branches collection (create / re-create),
`patch`, `get` and `del` target one protected-branch resource, and
`getBranch` is the repository-branch existence probe. -/
inductive Req where
  | post (projectID : Int) (payload : Payload)
  | patch (projectID : Int) (branch : String) (payload : Payload)
  | get (projectID : Int) (branch : String)
  | del (projectID : Int) (branch : String)
  | getBranch (projectID : Int) (branch : String)
deriving DecidableEq, Repr

/-- Errors surfaced by the clients, tagged by the step that produced them
exactly as the Go error strings tag them ("create %d", "delete %d",
"re-create %d", "status %d"); `transport` carries the failed request, as
Go's `url.Error` carries method and URL. -/
inductive RulerError where
  | transport (q : Req)
  | createFailed (status : Nat) (body : String)
  | deleteFailed (status : Nat) (body : String)
  | recreateFailed (status : Nat) (body : String)
  | statusFailed (status : Nat) (body : String)
deriving DecidableEq, Repr

/-- A stateful server oracle: from a state and a request produce a response
(`none` = transport failure) and a successor state. -/
abbrev Server (σ : Type) := σ → Req → Option HttpResult × σ

/-- The remote protection rule for one branch: push and merge access level. -/
structure Protection where
  pushLevel : Int
  mergeLevel : Int
deriving DecidableEq, Repr

/-- The marker scanned for by the verification step:
`fmt.Sprintf("\"access_level\":%d", level)`. -/
def accessLevelPattern (level : Int) : String :=
  "\"access_level\":" ++ toString level

/-- Modelled from the spec: the JSON representation GitLab returns for a
protected-branch resource, which carries `"access_level":N` once for the
push level and once for the merge level (§6 of the design). -/
def renderProtection (p : Protection) : String :=
  "\x7b\"push_access_levels\":[\x7b" ++ accessLevelPattern p.pushLevel ++
  "\x7d],\"merge_access_levels\":[\x7b" ++ accessLevelPattern p.mergeLevel ++
  "\x7d]\x7d"

theorem render_contains_push (p : Protection) :
    strContains (renderProtection p) (accessLevelPattern p.pushLevel) = true := by
  have h := containsSub_sandwich "\x7b\"push_access_levels\":[\x7b".data
    (accessLevelPattern p.pushLevel).data
    ("\x7d],\"merge_access_levels\":[\x7b".data ++
      (accessLevelPattern p.mergeLevel).data ++ "\x7d]\x7d".data)
  unfold strContains renderProtection
  simpa [string_data_append, List.append_assoc] using h

theorem render_contains_merge (p : Protection) :
    strContains (renderProtection p) (accessLevelPattern p.mergeLevel) = true := by
  have h := containsSub_sandwich
    ("\x7b\"push_access_levels\":[\x7b".data ++
      (accessLevelPattern p.pushLevel).data ++ "\x7d],\"merge_access_levels\":[\x7b".data)
    (accessLevelPattern p.mergeLevel).data "\x7d]\x7d".data
  unfold strContains renderProtection
  simpa [string_data_append, List.append_assoc] using h

/-! ## The reconciler with the PATCH/verify path -/

/-- `protectionHasLevel` re-reads the protection rule and scans the raw
response body for `"access_level":level`; the HTTP status is never
inspected, and only a transport failure yields an error. -/
def protectionHasLevel {σ : Type} (srv : Server σ) (projectID : Int)
    (branchName : String) (level : Int) (s : σ) :
    Except RulerError Bool × σ × List Req :=
  let gq := Req.get projectID branchName
  match srv s gq with
  | (none, s1) => (.error (.transport gq), s1, [gq])
  | (some r, s1) => (.ok (strContains r.body (accessLevelPattern level)), s1, [gq])

/-- `deleteAndRecreateProtection`: DELETE the rule (any status ≥ 400,
including 404, is surfaced as a delete failure and stops the step), then
POST it fresh (status ≥ 400 is a re-create failure). -/
def deleteAndRecreateProtection {σ : Type} (srv : Server σ) (projectID : Int)
    (branchName : String) (payload : Payload) (s : σ) :
    Except RulerError Unit × σ × List Req :=
  let dq := Req.del projectID branchName
  match srv s dq with
  | (none, s1) => (.error (.transport dq), s1, [dq])
  | (some r, s1) =>
    if 400 ≤ r.status then (.error (.deleteFailed r.status r.body), s1, [dq])
    else
      let pq := Req.post projectID payload
      match srv s1 pq with
      | (none, s2) => (.error (.transport pq), s2, [dq, pq])
      | (some r2, s2) =>
        if 400 ≤ r2.status then (.error (.recreateFailed r2.status r2.body), s2, [dq, pq])
        else (.ok (), s2, [dq, pq])

/-- `EnsureBranchProtection` (PATCH/verify variant): POST create; 201 is
success and any status other than 409 is a create failure; on 409 PATCH the
rule; if the PATCH status is < 400, verify via `protectionHasLevel` and
succeed if the level is present; otherwise fall through to
`deleteAndRecreateProtection`. -/
def EnsureBranchProtection {σ : Type} (srv : Server σ) (projectID : Int)
    (branchName : String) (pushAccessLevel mergeAccessLevel : Int) (s : σ) :
    Except RulerError Unit × σ × List Req :=
  let payload : Payload := ⟨branchName, pushAccessLevel, mergeAccessLevel⟩
  let cq := Req.post projectID payload
  match srv s cq with
  | (none, s1) => (.error (.transport cq), s1, [cq])
  | (some r1, s1) =>
    if r1.status = 201 then (.ok (), s1, [cq])
    else if r1.status = 409 then
      let uq := Req.patch projectID branchName payload
      match srv s1 uq with
      | (none, s2) => (.error (.transport uq), s2, [cq, uq])
      | (some r2, s2) =>
        if r2.status < 400 then
          match protectionHasLevel srv projectID branchName pushAccessLevel s2 with
          | (.error e, s3, vtr) => (.error e, s3, cq :: uq :: vtr)
          | (.ok true, s3, vtr) => (.ok (), s3, cq :: uq :: vtr)
          | (.ok false, s3, vtr) =>
            let d := deleteAndRecreateProtection srv projectID branchName payload s3
            (d.1, d.2.1, cq :: uq :: (vtr ++ d.2.2))
        else
          let d := deleteAndRecreateProtection srv projectID branchName payload s2
          (d.1, d.2.1, cq :: uq :: d.2.2)
    else (.error (.createFailed r1.status r1.body), s1, [cq])

/-- A project as decoded from the listing endpoint. -/
structure Project where
  id : Int
  name : String
  defaultBranch : String
deriving DecidableEq, Repr

/-- A group as decoded from the listing endpoints (the source names this
record `Group`; that name belongs to Mathlib here). -/
structure GitGroup where
  id : Int
  name : String
deriving DecidableEq, Repr

/-- The per-project step of the default-branch-only walker variant: skip a
project without a default branch, otherwise reconcile the default branch
directly — no branch-existence probe is issued. -/
def processProjectDefaultOnly {σ : Type} (srv : Server σ) (push merge : Int)
    (p : Project) (s : σ) : σ × List Req :=
  if p.defaultBranch = "" then (s, [])
  else
    let e := EnsureBranchProtection srv p.id p.defaultBranch push merge s
    (e.2.1, e.2.2)

/-! ## A faithful single-resource GitLab model (§6 of the design)

State is the protection rule of one branch (`none` = unprotected).
`patchApplies` selects whether a PATCH actually stores the submitted
levels, modelling the upstream API that may accept an update without
applying it. -/

def gitlabStep (patchApplies : Bool) : Server (Option Protection) := fun s q =>
  match q, s with
  | Req.post _ payload, none =>
      (some ⟨201, ""⟩, some ⟨payload.pushAccessLevel, payload.mergeAccessLevel⟩)
  | Req.post _ _, some p => (some ⟨409, "Protected branch already exists"⟩, some p)
  | Req.patch _ _ payload, some p =>
      (some ⟨200, ""⟩,
        some (if patchApplies then ⟨payload.pushAccessLevel, payload.mergeAccessLevel⟩ else p))
  | Req.patch _ _ _, none => (some ⟨404, ""⟩, none)
  | Req.get _ _, some p => (some ⟨200, renderProtection p⟩, some p)
  | Req.get _ _, none => (some ⟨404, "\x7b\"message\":\"404 Not found\"\x7d"⟩, none)
  | Req.del _ _, some _ => (some ⟨204, ""⟩, none)
  | Req.del _ _, none => (some ⟨404, ""⟩, none)
  | Req.getBranch _ _, s0 => (some ⟨200, ""⟩, s0)

/-- A scripted server for concrete runs: answers the `n`-th call with the
`n`-th listed response, regardless of the request; past the end of the
script every call is a transport failure. -/
def scriptServer (rs : List HttpResult) : Server Nat := fun n _ => (rs[n]?, n + 1)

/-! ## The client in `internal/gitlab/client.go` -/

namespace Plain

/-- `BranchExists`: GET the repository branch; 200 means it exists, 404
means it does not, any other status is an error. -/
def BranchExists {σ : Type} (srv : Server σ) (projectID : Int) (branchName : String)
    (s : σ) : Except RulerError Bool × σ × List Req :=
  let q := Req.getBranch projectID branchName
  match srv s q with
  | (none, s1) => (.error (.transport q), s1, [q])
  | (some r, s1) =>
    if r.status = 200 then (.ok true, s1, [q])
    else if r.status = 404 then (.ok false, s1, [q])
    else (.error (.statusFailed r.status r.body), s1, [q])

/-- `EnsureBranchProtection` (plain variant): POST create; 201 succeeds,
any status other than 409 is a create failure; on 409 DELETE the rule
(status ≥ 400 is a delete failure) and POST it again (status ≥ 400 is a
re-create failure). -/
def EnsureBranchProtection {σ : Type} (srv : Server σ) (projectID : Int)
    (branchName : String) (pushAccessLevel mergeAccessLevel : Int) (s : σ) :
    Except RulerError Unit × σ × List Req :=
  let payload : Payload := ⟨branchName, pushAccessLevel, mergeAccessLevel⟩
  let cq := Req.post projectID payload
  match srv s cq with
  | (none, s1) => (.error (.transport cq), s1, [cq])
  | (some r1, s1) =>
    if r1.status = 201 then (.ok (), s1, [cq])
    else if r1.status ≠ 409 then (.error (.createFailed r1.status r1.body), s1, [cq])
    else
      let dq := Req.del projectID branchName
      match srv s1 dq with
      | (none, s2) => (.error (.transport dq), s2, [cq, dq])
      | (some r2, s2) =>
        if 400 ≤ r2.status then (.error (.deleteFailed r2.status r2.body), s2, [cq, dq])
        else
          match srv s2 cq with
          | (none, s3) => (.error (.transport cq), s3, [cq, dq, cq])
          | (some r3, s3) =>
            if 400 ≤ r3.status then
              (.error (.recreateFailed r3.status r3.body), s3, [cq, dq, cq])
            else (.ok (), s3, [cq, dq, cq])

/-- The candidate list built inside `ProcessGroup`: `main` and `master`,
with the project's default branch prepended when it is non-empty and is
neither of the two. -/
def protectedBranchesFor (defaultBranch : String) : List String :=
  let protectedBranches := ["main", "master"]
  if defaultBranch ≠ "" ∧ defaultBranch ≠ "main" ∧ defaultBranch ≠ "master" then
    defaultBranch :: protectedBranches
  else protectedBranches

/-- The per-candidate loop of `ProcessGroup`: probe existence first; an
existence error or a missing branch skips just this candidate; a confirmed
branch is reconciled (a reconciliation error is logged and the loop
continues). -/
def processBranches {σ : Type} (srv : Server σ) (pid : Int) (push merge : Int) :
    List String → σ → σ × List Req
  | [], s => (s, [])
  | b :: rest, s =>
    match BranchExists srv pid b s with
    | (.error _, s1, tr1) =>
      let r := processBranches srv pid push merge rest s1
      (r.1, tr1 ++ r.2)
    | (.ok false, s1, tr1) =>
      let r := processBranches srv pid push merge rest s1
      (r.1, tr1 ++ r.2)
    | (.ok true, s1, tr1) =>
      let e := EnsureBranchProtection srv pid b push merge s1
      let r := processBranches srv pid push merge rest e.2.1
      (r.1, tr1 ++ e.2.2 ++ r.2)

/-- One project of the conventional-set walker: run the candidate loop on
`protectedBranchesFor` of its default branch. -/
def processProject {σ : Type} (srv : Server σ) (push merge : Int) (p : Project)
    (s : σ) : σ × List Req :=
  processBranches srv p.id push merge (protectedBranchesFor p.defaultBranch) s

/-- The project loop of `ProcessGroup`. -/
def processProjects {σ : Type} (srv : Server σ) (push merge : Int) :
    List Project → σ → σ × List Req
  | [], s => (s, [])
  | p :: ps, s =>
    let e := processProject srv push merge p s
    let r := processProjects srv push merge ps e.1
    (r.1, e.2 ++ r.2)

end Plain

/-! ## The group walker

The group hierarchy is a finite tree (the design relies on the upstream
system enforcing this).  Each node packages what the two listing calls at
that group return: the project listing outcome, and either a subgroup
listing error or the child groups.  A mutual tree/forest pair keeps the
recursion structural. -/

mutual
inductive GroupTree where
  | node (g : GitGroup) (projects : Except RulerError (List Project))
      (subsErr : Option RulerError) (subgroups : GroupForest) : GroupTree
inductive GroupForest where
  | nil : GroupForest
  | cons (t : GroupTree) (ts : GroupForest) : GroupForest
end

/-- Events observable from a walker run: a group being processed, the two
logged listing failures, entering a subgroup, and the HTTP requests issued
while reconciling projects. -/
inductive WEvent where
  | visit (id : Int)
  | projectsError (id : Int)
  | subgroupsError (id : Int)
  | enterSubgroup (id : Int)
  | api (q : Req)
deriving DecidableEq, Repr

namespace Plain

mutual
/-- `ProcessGroup`: process the group's projects (a listing failure is
logged and does not stop the walk), then list subgroups (a failure there
is logged and ends this subtree) and recurse into each child in order. -/
def processGroup {σ : Type} (srv : Server σ) (push merge : Int) :
    GroupTree → σ → σ × List WEvent
  | .node g projs subsErr gs, s =>
    let pr : σ × List WEvent :=
      match projs with
      | .error _ => (s, [WEvent.projectsError g.id])
      | .ok ps =>
        let r := processProjects srv push merge ps s
        (r.1, r.2.map WEvent.api)
    match subsErr with
    | some _ => (pr.1, WEvent.visit g.id :: (pr.2 ++ [WEvent.subgroupsError g.id]))
    | none =>
      let sub := processForest srv push merge gs pr.1
      (sub.1, WEvent.visit g.id :: (pr.2 ++ sub.2))

/-- The subgroup loop of `ProcessGroup`: enter each child and recurse. -/
def processForest {σ : Type} (srv : Server σ) (push merge : Int) :
    GroupForest → σ → σ × List WEvent
  | .nil, s => (s, [])
  | .cons t ts, s =>
    let gid : Int := match t with | .node g _ _ _ => g.id
    let e := processGroup srv push merge t s
    let r := processForest srv push merge ts e.1
    (r.1, WEvent.enterSubgroup gid :: (e.2 ++ r.2))
end

end Plain

/-- The groups a walker run visits, read off the event log. -/
def visitedIds (evs : List WEvent) : List Int :=
  evs.filterMap (fun e => match e with | WEvent.visit i => some i | _ => none)

mutual
/-- The groups the walker reaches in a tree: the root always, and the whole
forest below it exactly when the subgroup listing succeeded. -/
def visitedTree : GroupTree → List Int
  | .node g _ (some _) _ => [g.id]
  | .node g _ none gs => g.id :: visitedForest gs
def visitedForest : GroupForest → List Int
  | .nil => []
  | .cons t ts => visitedTree t ++ visitedForest ts
end

/-- Forest concatenation, for sibling-isolation statements. -/
def forestAppend : GroupForest → GroupForest → GroupForest
  | .nil, f => f
  | .cons t ts, f => .cons t (forestAppend ts f)

/-! ## The paginated listers -/

/-- One page as the listing loop sees it: the HTTP status (which the loop
never reads), the body decoded as a record list (`none` when the body does
not decode), and the `X-Next-Page` header value (`""` = absent). -/
structure PageResponse (α : Type) where
  status : Nat
  decoded : Option (List α)
  nextPage : String

/-- Failures of a listing run.  `outOfFuel` is an artefact of the
embedding: the Go loop is unbounded, so we index it by fuel and always
instantiate theorems with enough of it. -/
inductive ListError where
  | transport
  | decodeFailed
  | outOfFuel
deriving DecidableEq, Repr

/-- The listing loop shared by `ListProjects` and `ListSubgroups`: fetch a
page, abort on transport or decode failure, stop on an empty page, append
the records, stop when `X-Next-Page` is empty, else continue with the next
page.  Returns the accumulated records (errors carry no partial records)
and the number of page requests issued. -/
def paginateAux {α : Type} (pages : Nat → Option (PageResponse α)) :
    Nat → Nat → Except ListError (List α) × Nat
  | 0, _ => (.error .outOfFuel, 0)
  | fuel + 1, page =>
    match pages page with
    | none => (.error .transport, 1)
    | some r =>
      match r.decoded with
      | none => (.error .decodeFailed, 1)
      | some recs =>
        if recs.isEmpty then (.ok [], 1)
        else if r.nextPage = "" then (.ok recs, 1)
        else
          let rest := paginateAux pages fuel (page + 1)
          (rest.1.map (fun tail => recs ++ tail), rest.2 + 1)

/-- `ListProjects`: run the listing loop from page 1. -/
def ListProjects (pages : Nat → Option (PageResponse Project)) (fuel : Nat) :
    Except ListError (List Project) × Nat :=
  paginateAux pages fuel 1

/-- `ListSubgroups`: the same loop from page 1 over group records. -/
def ListSubgroups (pages : Nat → Option (PageResponse GitGroup)) (fuel : Nat) :
    Except ListError (List GitGroup) × Nat :=
  paginateAux pages fuel 1

/-- Modelled from the spec: a well-behaved paginated server over a fixed
record list with page size `P` — every page decodes, and the next-page
header is present exactly while records remain beyond the served page
(absent on the last non-empty page and afterwards). -/
def pagesOf {α : Type} (recs : List α) (P : Nat) : Nat → Option (PageResponse α) :=
  fun page =>
    some ⟨200, some ((recs.drop ((page - 1) * P)).take P),
      if page * P < recs.length then "next" else ""⟩

/-- Requests needed to read `m` remaining records at page size `P`, as the
loop issues them: one probe even when nothing remains. -/
def ceilDiv (m P : Nat) : Nat := (m + P - 1) / P

/-! ## Run characterizations of the PATCH/verify reconciler -/

theorem deleteRecreate_cases {σ : Type} (srv : Server σ) (pid : Int) (b : String)
    (pl : Payload) (s : σ) :
    (∃ s1, srv s (Req.del pid b) = (none, s1) ∧
      deleteAndRecreateProtection srv pid b pl s =
        (.error (.transport (Req.del pid b)), s1, [Req.del pid b])) ∨
    (∃ r s1, srv s (Req.del pid b) = (some r, s1) ∧ 400 ≤ r.status ∧
      deleteAndRecreateProtection srv pid b pl s =
        (.error (.deleteFailed r.status r.body), s1, [Req.del pid b])) ∨
    (∃ r s1 s2, srv s (Req.del pid b) = (some r, s1) ∧ r.status < 400 ∧
      srv s1 (Req.post pid pl) = (none, s2) ∧
      deleteAndRecreateProtection srv pid b pl s =
        (.error (.transport (Req.post pid pl)), s2, [Req.del pid b, Req.post pid pl])) ∨
    (∃ r s1 r2 s2, srv s (Req.del pid b) = (some r, s1) ∧ r.status < 400 ∧
      srv s1 (Req.post pid pl) = (some r2, s2) ∧ 400 ≤ r2.status ∧
      deleteAndRecreateProtection srv pid b pl s =
        (.error (.recreateFailed r2.status r2.body), s2, [Req.del pid b, Req.post pid pl])) ∨
    (∃ r s1 r2 s2, srv s (Req.del pid b) = (some r, s1) ∧ r.status < 400 ∧
      srv s1 (Req.post pid pl) = (some r2, s2) ∧ r2.status < 400 ∧
      deleteAndRecreateProtection srv pid b pl s =
        (.ok (), s2, [Req.del pid b, Req.post pid pl])) := by
  rcases h1 : srv s (Req.del pid b) with ⟨o1, s1⟩
  cases o1 with
  | none => exact Or.inl ⟨s1, rfl, by simp [deleteAndRecreateProtection, h1]⟩
  | some r =>
    by_cases hs : 400 ≤ r.status
    · exact Or.inr (Or.inl ⟨r, s1, rfl, hs,
        by simp [deleteAndRecreateProtection, h1, hs]⟩)
    · rcases h2 : srv s1 (Req.post pid pl) with ⟨o2, s2⟩
      cases o2 with
      | none =>
        exact Or.inr (Or.inr (Or.inl ⟨r, s1, s2, rfl, by omega, h2,
          by simp [deleteAndRecreateProtection, h1, hs, h2]⟩))
      | some r2 =>
        by_cases hs2 : 400 ≤ r2.status
        · exact Or.inr (Or.inr (Or.inr (Or.inl ⟨r, s1, r2, s2, rfl, by omega, h2, hs2,
            by simp [deleteAndRecreateProtection, h1, hs, h2, hs2]⟩)))
        · exact Or.inr (Or.inr (Or.inr (Or.inr ⟨r, s1, r2, s2, rfl, by omega, h2, by omega,
            by simp [deleteAndRecreateProtection, h1, hs, h2, hs2]⟩)))

theorem ensure_cases {σ : Type} (srv : Server σ) (pid : Int) (b : String)
    (push merge : Int) (s : σ) :
    (∃ s1, srv s (Req.post pid ⟨b, push, merge⟩) = (none, s1) ∧
      EnsureBranchProtection srv pid b push merge s =
        (.error (.transport (Req.post pid ⟨b, push, merge⟩)), s1,
          [Req.post pid ⟨b, push, merge⟩])) ∨
    (∃ r1 s1, srv s (Req.post pid ⟨b, push, merge⟩) = (some r1, s1) ∧ r1.status = 201 ∧
      EnsureBranchProtection srv pid b push merge s =
        (.ok (), s1, [Req.post pid ⟨b, push, merge⟩])) ∨
    (∃ r1 s1, srv s (Req.post pid ⟨b, push, merge⟩) = (some r1, s1) ∧
      r1.status ≠ 201 ∧ r1.status ≠ 409 ∧
      EnsureBranchProtection srv pid b push merge s =
        (.error (.createFailed r1.status r1.body), s1, [Req.post pid ⟨b, push, merge⟩])) ∨
    (∃ r1 s1 s2, srv s (Req.post pid ⟨b, push, merge⟩) = (some r1, s1) ∧ r1.status = 409 ∧
      srv s1 (Req.patch pid b ⟨b, push, merge⟩) = (none, s2) ∧
      EnsureBranchProtection srv pid b push merge s =
        (.error (.transport (Req.patch pid b ⟨b, push, merge⟩)), s2,
          [Req.post pid ⟨b, push, merge⟩, Req.patch pid b ⟨b, push, merge⟩])) ∨
    (∃ r1 s1 r2 s2, srv s (Req.post pid ⟨b, push, merge⟩) = (some r1, s1) ∧
      r1.status = 409 ∧
      srv s1 (Req.patch pid b ⟨b, push, merge⟩) = (some r2, s2) ∧ 400 ≤ r2.status ∧
      EnsureBranchProtection srv pid b push merge s =
        ((deleteAndRecreateProtection srv pid b ⟨b, push, merge⟩ s2).1,
          (deleteAndRecreateProtection srv pid b ⟨b, push, merge⟩ s2).2.1,
          Req.post pid ⟨b, push, merge⟩ :: Req.patch pid b ⟨b, push, merge⟩ ::
            (deleteAndRecreateProtection srv pid b ⟨b, push, merge⟩ s2).2.2)) ∨
    (∃ r1 s1 r2 s2 s3, srv s (Req.post pid ⟨b, push, merge⟩) = (some r1, s1) ∧
      r1.status = 409 ∧
      srv s1 (Req.patch pid b ⟨b, push, merge⟩) = (some r2, s2) ∧ r2.status < 400 ∧
      srv s2 (Req.get pid b) = (none, s3) ∧
      EnsureBranchProtection srv pid b push merge s =
        (.error (.transport (Req.get pid b)), s3,
          [Req.post pid ⟨b, push, merge⟩, Req.patch pid b ⟨b, push, merge⟩,
            Req.get pid b])) ∨
    (∃ r1 s1 r2 s2 r3 s3, srv s (Req.post pid ⟨b, push, merge⟩) = (some r1, s1) ∧
      r1.status = 409 ∧
      srv s1 (Req.patch pid b ⟨b, push, merge⟩) = (some r2, s2) ∧ r2.status < 400 ∧
      srv s2 (Req.get pid b) = (some r3, s3) ∧
      strContains r3.body (accessLevelPattern push) = true ∧
      EnsureBranchProtection srv pid b push merge s =
        (.ok (), s3,
          [Req.post pid ⟨b, push, merge⟩, Req.patch pid b ⟨b, push, merge⟩,
            Req.get pid b])) ∨
    (∃ r1 s1 r2 s2 r3 s3, srv s (Req.post pid ⟨b, push, merge⟩) = (some r1, s1) ∧
      r1.status = 409 ∧
      srv s1 (Req.patch pid b ⟨b, push, merge⟩) = (some r2, s2) ∧ r2.status < 400 ∧
      srv s2 (Req.get pid b) = (some r3, s3) ∧
      strContains r3.body (accessLevelPattern push) = false ∧
      EnsureBranchProtection srv pid b push merge s =
        ((deleteAndRecreateProtection srv pid b ⟨b, push, merge⟩ s3).1,
          (deleteAndRecreateProtection srv pid b ⟨b, push, merge⟩ s3).2.1,
          Req.post pid ⟨b, push, merge⟩ :: Req.patch pid b ⟨b, push, merge⟩ ::
            Req.get pid b ::
            (deleteAndRecreateProtection srv pid b ⟨b, push, merge⟩ s3).2.2)) := by
  rcases h1 : srv s (Req.post pid ⟨b, push, merge⟩) with ⟨o1, s1⟩
  cases o1 with
  | none =>
    exact Or.inl ⟨s1, rfl, by simp [EnsureBranchProtection, h1]⟩
  | some r1 =>
    by_cases e201 : r1.status = 201
    · exact Or.inr (Or.inl ⟨r1, s1, rfl, e201, by simp [EnsureBranchProtection, h1, e201]⟩)
    · by_cases e409 : r1.status = 409
      · rcases h2 : srv s1 (Req.patch pid b ⟨b, push, merge⟩) with ⟨o2, s2⟩
        cases o2 with
        | none =>
          refine Or.inr (Or.inr (Or.inr (Or.inl ⟨r1, s1, s2, rfl, e409, h2, ?_⟩)))
          simp [EnsureBranchProtection, h1, e201, e409, h2]
        | some r2 =>
          by_cases hlt : r2.status < 400
          · rcases h3 : srv s2 (Req.get pid b) with ⟨o3, s3⟩
            cases o3 with
            | none =>
              refine Or.inr (Or.inr (Or.inr (Or.inr (Or.inr (Or.inl
                ⟨r1, s1, r2, s2, s3, rfl, e409, h2, hlt, h3, ?_⟩)))))
              simp [EnsureBranchProtection, protectionHasLevel, h1, e201, e409, h2, hlt, h3]
            | some r3 =>
              by_cases hv : strContains r3.body (accessLevelPattern push) = true
              · refine Or.inr (Or.inr (Or.inr (Or.inr (Or.inr (Or.inr (Or.inl
                  ⟨r1, s1, r2, s2, r3, s3, rfl, e409, h2, hlt, h3, hv, ?_⟩))))))
                simp [EnsureBranchProtection, protectionHasLevel, h1, e201, e409, h2, hlt,
                  h3, hv]
              · have hv2 : strContains r3.body (accessLevelPattern push) = false := by
                  simpa using hv
                refine Or.inr (Or.inr (Or.inr (Or.inr (Or.inr (Or.inr (Or.inr
                  ⟨r1, s1, r2, s2, r3, s3, rfl, e409, h2, hlt, h3, hv2, ?_⟩))))))
                simp [EnsureBranchProtection, protectionHasLevel, h1, e201, e409, h2, hlt,
                  h3, hv2]
          · refine Or.inr (Or.inr (Or.inr (Or.inr (Or.inl
              ⟨r1, s1, r2, s2, rfl, e409, h2, by omega, ?_⟩))))
            simp [EnsureBranchProtection, h1, e201, e409, h2, hlt]
      · exact Or.inr (Or.inr (Or.inl ⟨r1, s1, rfl, e201, e409,
          by simp [EnsureBranchProtection, h1, e201, e409]⟩))

/-! ## Claims about the PATCH/verify reconciler -/

theorem ensure_gitlab_absent (pa : Bool) (pid push merge : Int) (branch : String) :
    EnsureBranchProtection (gitlabStep pa) pid branch push merge none =
      (.ok (), some ⟨push, merge⟩, [Req.post pid ⟨branch, push, merge⟩]) := by
  simp [EnsureBranchProtection, gitlabStep]

theorem ensure_gitlab_present (pa : Bool) (pid push merge : Int) (branch : String) :
    EnsureBranchProtection (gitlabStep pa) pid branch push merge (some ⟨push, merge⟩) =
      (.ok (), some ⟨push, merge⟩,
        [Req.post pid ⟨branch, push, merge⟩, Req.patch pid branch ⟨branch, push, merge⟩,
          Req.get pid branch]) := by
  have hc : strContains (renderProtection ⟨push, merge⟩) (accessLevelPattern push) = true :=
    render_contains_push ⟨push, merge⟩
  simp [EnsureBranchProtection, protectionHasLevel, gitlabStep, hc]

/-- Claim C1: starting from an unprotected branch, running the PATCH/verify
reconciler twice against the GitLab model (for either PATCH reliability)
succeeds both times, leaves the same final remote state as one run, and the
second run goes create-conflict → update → verify — its request trace is
POST, PATCH, GET, with no DELETE. -/
theorem ensure_idempotent_from_absent (pa : Bool) (pid push merge : Int)
    (branch : String) :
    (EnsureBranchProtection (gitlabStep pa) pid branch push merge none).1 = .ok () ∧
    (EnsureBranchProtection (gitlabStep pa) pid branch push merge none).2.1 =
      some ⟨push, merge⟩ ∧
    (EnsureBranchProtection (gitlabStep pa) pid branch push merge
        (EnsureBranchProtection (gitlabStep pa) pid branch push merge none).2.1).1 =
      .ok () ∧
    (EnsureBranchProtection (gitlabStep pa) pid branch push merge
        (EnsureBranchProtection (gitlabStep pa) pid branch push merge none).2.1).2.1 =
      (EnsureBranchProtection (gitlabStep pa) pid branch push merge none).2.1 ∧
    (EnsureBranchProtection (gitlabStep pa) pid branch push merge
        (EnsureBranchProtection (gitlabStep pa) pid branch push merge none).2.1).2.2 =
      [Req.post pid ⟨branch, push, merge⟩, Req.patch pid branch ⟨branch, push, merge⟩,
        Req.get pid branch] := by
  simp [ensure_gitlab_absent, ensure_gitlab_present]

/-- Claim C2: the reconciler escalates in cost order — the first request is
always the create POST; the update PATCH appears in the trace only when the
create answered 409; the DELETE appears only when an update PATCH was
attempted and either the PATCH status was ≥ 400 or the post-update read-back
did not contain the desired push level. -/
theorem ensure_escalation_order {σ : Type} (srv : Server σ) (pid : Int)
    (branch : String) (push merge : Int) (s : σ) :
    (EnsureBranchProtection srv pid branch push merge s).2.2.head? =
      some (Req.post pid ⟨branch, push, merge⟩) ∧
    (Req.patch pid branch ⟨branch, push, merge⟩ ∈
        (EnsureBranchProtection srv pid branch push merge s).2.2 →
      ∃ r1 s1, srv s (Req.post pid ⟨branch, push, merge⟩) = (some r1, s1) ∧
        r1.status = 409) ∧
    (Req.del pid branch ∈ (EnsureBranchProtection srv pid branch push merge s).2.2 →
      Req.patch pid branch ⟨branch, push, merge⟩ ∈
        (EnsureBranchProtection srv pid branch push merge s).2.2 ∧
      ∃ r1 s1 r2 s2, srv s (Req.post pid ⟨branch, push, merge⟩) = (some r1, s1) ∧
        r1.status = 409 ∧
        srv s1 (Req.patch pid branch ⟨branch, push, merge⟩) = (some r2, s2) ∧
        (400 ≤ r2.status ∨ (r2.status < 400 ∧
          ∃ r3 s3, srv s2 (Req.get pid branch) = (some r3, s3) ∧
            strContains r3.body (accessLevelPattern push) = false))) := by
  rcases ensure_cases srv pid branch push merge s with
    ⟨s1, h1, hE⟩ | ⟨r1, s1, h1, h201, hE⟩ | ⟨r1, s1, h1, hne1, hne2, hE⟩ |
    ⟨r1, s1, s2, h1, h409, h2, hE⟩ | ⟨r1, s1, r2, s2, h1, h409, h2, hge, hE⟩ |
    ⟨r1, s1, r2, s2, s3, h1, h409, h2, hlt, h3, hE⟩ |
    ⟨r1, s1, r2, s2, r3, s3, h1, h409, h2, hlt, h3, hv, hE⟩ |
    ⟨r1, s1, r2, s2, r3, s3, h1, h409, h2, hlt, h3, hv, hE⟩
  · refine ⟨by rw [hE]; rfl, ?_, ?_⟩ <;> · intro hmem; rw [hE] at hmem; simp at hmem
  · refine ⟨by rw [hE]; rfl, ?_, ?_⟩ <;> · intro hmem; rw [hE] at hmem; simp at hmem
  · refine ⟨by rw [hE]; rfl, ?_, ?_⟩ <;> · intro hmem; rw [hE] at hmem; simp at hmem
  · refine ⟨by rw [hE]; rfl, fun _ => ⟨r1, s1, h1, h409⟩, ?_⟩
    intro hmem; rw [hE] at hmem; simp at hmem
  · refine ⟨by rw [hE]; rfl, fun _ => ⟨r1, s1, h1, h409⟩, fun _ => ⟨?_, ?_⟩⟩
    · rw [hE]; simp
    · exact ⟨r1, s1, r2, s2, h1, h409, h2, Or.inl hge⟩
  · refine ⟨by rw [hE]; rfl, fun _ => ⟨r1, s1, h1, h409⟩, ?_⟩
    intro hmem; rw [hE] at hmem; simp at hmem
  · refine ⟨by rw [hE]; rfl, fun _ => ⟨r1, s1, h1, h409⟩, ?_⟩
    intro hmem; rw [hE] at hmem; simp at hmem
  · refine ⟨by rw [hE]; rfl, fun _ => ⟨r1, s1, h1, h409⟩, fun _ => ⟨?_, ?_⟩⟩
    · rw [hE]; simp
    · exact ⟨r1, s1, r2, s2, h1, h409, h2, Or.inr ⟨hlt, r3, s3, h3, hv⟩⟩

/-- A script driving the reconciler down the update-failure escalation:
create 409, update 500, delete 204, re-create 201. -/
def c2script : Server Nat := scriptServer [⟨409, ""⟩, ⟨500, ""⟩, ⟨204, ""⟩, ⟨201, ""⟩]

theorem ensure_escalation_order_witness :
    (Req.patch 1 "main" ⟨"main", 30, 30⟩ ∈
        (EnsureBranchProtection c2script 1 "main" 30 30 0).2.2 ∧
      ∃ r1 s1, c2script 0 (Req.post 1 ⟨"main", 30, 30⟩) = (some r1, s1) ∧
        r1.status = 409) :=
  ⟨((ensure_escalation_order c2script 1 "main" 30 30 0).2.2 (by decide)).1,
    (ensure_escalation_order c2script 1 "main" 30 30 0).2.1 (by decide)⟩

/-- Claim C3 counterexample: against the GitLab model with the rule already
absent, the DELETE answers 404 and the hard-recreate step surfaces a
terminal delete failure — its trace is the DELETE alone, no fresh create
follows, contradicting "404 is treated as success". -/
theorem delete404_not_success_cex :
    deleteAndRecreateProtection (gitlabStep true) 1 "main" ⟨"main", 30, 30⟩ none =
      (.error (.deleteFailed 404 ""), none, [Req.del 1 "main"]) := by
  rfl

/-- Claim C3 (amended): the hard-recreate step treats every DELETE status
≥ 400 — 404 included — as a terminal delete failure with no subsequent
create, and proceeds to the fresh create exactly when the DELETE status is
< 400. -/
theorem delete_status_dichotomy {σ : Type} (srv : Server σ) (pid : Int) (b : String)
    (pl : Payload) (s : σ) (r : HttpResult) (s1 : σ)
    (h : srv s (Req.del pid b) = (some r, s1)) :
    (r.status = 404 →
      deleteAndRecreateProtection srv pid b pl s =
        (.error (.deleteFailed r.status r.body), s1, [Req.del pid b])) ∧
    (400 ≤ r.status →
      deleteAndRecreateProtection srv pid b pl s =
        (.error (.deleteFailed r.status r.body), s1, [Req.del pid b])) ∧
    (r.status < 400 →
      (deleteAndRecreateProtection srv pid b pl s).2.2 =
        [Req.del pid b, Req.post pid pl]) := by
  refine ⟨?_, ?_, ?_⟩
  · intro h404
    have hge : 400 ≤ r.status := by omega
    simp [deleteAndRecreateProtection, h, hge]
  · intro hge
    simp [deleteAndRecreateProtection, h, hge]
  · intro hlt
    have hn : ¬ 400 ≤ r.status := by omega
    rcases h2 : srv s1 (Req.post pid pl) with ⟨o2, s2⟩
    cases o2 with
    | none => simp [deleteAndRecreateProtection, h, hn, h2]
    | some r2 =>
      by_cases h4 : 400 ≤ r2.status <;>
        simp [deleteAndRecreateProtection, h, hn, h2, h4]

theorem delete_status_dichotomy_witness :
    (deleteAndRecreateProtection (gitlabStep true) 2 "dev" ⟨"dev", 30, 40⟩ none =
      (.error (.deleteFailed 404 ""), none, [Req.del 2 "dev"])) ∧
    ((deleteAndRecreateProtection (gitlabStep true) 2 "dev" ⟨"dev", 30, 40⟩
        (some ⟨10, 10⟩)).2.2 = [Req.del 2 "dev", Req.post 2 ⟨"dev", 30, 40⟩]) :=
  ⟨(delete_status_dichotomy (gitlabStep true) 2 "dev" ⟨"dev", 30, 40⟩ none
      ⟨404, ""⟩ none rfl).1 rfl,
    (delete_status_dichotomy (gitlabStep true) 2 "dev" ⟨"dev", 30, 40⟩ (some ⟨10, 10⟩)
      ⟨204, ""⟩ none rfl).2.2 (by decide)⟩

/-- Claim C4: when the reconciler reaches hard recreate (create 409, update
status ≥ 400) and the DELETE itself answers with status ≥ 400, the run ends
with an error naming the delete failure and the full trace is POST, PATCH,
DELETE — no create is issued after the failed delete. -/
theorem delete_failure_stops_recreate {σ : Type} (srv : Server σ) (pid : Int)
    (branch : String) (push merge : Int) (s : σ) (r1 : HttpResult) (s1 : σ)
    (r2 : HttpResult) (s2 : σ) (r3 : HttpResult) (s3 : σ)
    (h1 : srv s (Req.post pid ⟨branch, push, merge⟩) = (some r1, s1))
    (h409 : r1.status = 409)
    (h2 : srv s1 (Req.patch pid branch ⟨branch, push, merge⟩) = (some r2, s2))
    (hu : 400 ≤ r2.status)
    (h3 : srv s2 (Req.del pid branch) = (some r3, s3))
    (hd : 400 ≤ r3.status) :
    EnsureBranchProtection srv pid branch push merge s =
      (.error (.deleteFailed r3.status r3.body), s3,
        [Req.post pid ⟨branch, push, merge⟩, Req.patch pid branch ⟨branch, push, merge⟩,
          Req.del pid branch]) := by
  have hne : r1.status ≠ 201 := by omega
  have hnl : ¬ r2.status < 400 := by omega
  simp [EnsureBranchProtection, deleteAndRecreateProtection, h1, h409, hne, h2, hnl, h3, hd]

/-- A script driving the reconciler into a failing delete: create 409,
update 500, delete 403. -/
def c4script : Server Nat := scriptServer [⟨409, ""⟩, ⟨500, ""⟩, ⟨403, "forbidden"⟩]

theorem delete_failure_stops_recreate_witness :
    EnsureBranchProtection c4script 1 "main" 30 30 0 =
      (.error (.deleteFailed 403 "forbidden"), 3,
        [Req.post 1 ⟨"main", 30, 30⟩, Req.patch 1 "main" ⟨"main", 30, 30⟩,
          Req.del 1 "main"]) :=
  delete_failure_stops_recreate c4script 1 "main" 30 30 0 ⟨409, ""⟩ 1 ⟨500, ""⟩ 2
    ⟨403, "forbidden"⟩ 3 rfl rfl rfl (by decide) rfl (by decide)

/-! ## Claims about branch selection -/

theorem deleteRecreate_no_getBranch {σ : Type} (srv : Server σ) (pid : Int)
    (b : String) (pl : Payload) (s : σ) (i : Int) (b2 : String) :
    Req.getBranch i b2 ∉ (deleteAndRecreateProtection srv pid b pl s).2.2 := by
  rcases deleteRecreate_cases srv pid b pl s with
    ⟨s1, h, hE⟩ | ⟨r, s1, h, hge, hE⟩ | ⟨r, s1, s2, h, hlt, h2, hE⟩ |
    ⟨r, s1, r2, s2, h, hlt, h2, hge, hE⟩ | ⟨r, s1, r2, s2, h, hlt, h2, hlt2, hE⟩ <;>
  rw [hE] <;> simp

theorem ensure_no_getBranch {σ : Type} (srv : Server σ) (pid : Int) (b : String)
    (push merge : Int) (s : σ) (i : Int) (b2 : String) :
    Req.getBranch i b2 ∉ (EnsureBranchProtection srv pid b push merge s).2.2 := by
  rcases ensure_cases srv pid b push merge s with
    ⟨s1, h1, hE⟩ | ⟨r1, s1, h1, h201, hE⟩ | ⟨r1, s1, h1, hne1, hne2, hE⟩ |
    ⟨r1, s1, s2, h1, h409, h2, hE⟩ | ⟨r1, s1, r2, s2, h1, h409, h2, hge, hE⟩ |
    ⟨r1, s1, r2, s2, s3, h1, h409, h2, hlt, h3, hE⟩ |
    ⟨r1, s1, r2, s2, r3, s3, h1, h409, h2, hlt, h3, hv, hE⟩ |
    ⟨r1, s1, r2, s2, r3, s3, h1, h409, h2, hlt, h3, hv, hE⟩ <;>
  rw [hE] <;> simp [deleteRecreate_no_getBranch]

/-- Claim C5 counterexample: under the default-branch-only walker variant a
project with default branch `dev` gets its protection POST issued directly —
the trace is the create request alone and contains no branch-existence
probe, so existence is not queried before the protection call in every
policy variant. -/
theorem default_only_skips_existence_cex :
    (processProjectDefaultOnly (gitlabStep true) 30 30 ⟨1, "svc", "dev"⟩ none).2 =
      [Req.post 1 ⟨"dev", 30, 30⟩] ∧
    Req.getBranch 1 "dev" ∉
      (processProjectDefaultOnly (gitlabStep true) 30 30 ⟨1, "svc", "dev"⟩ none).2 := by
  decide

theorem branchExists_trace {σ : Type} (srv : Server σ) (pid : Int) (b : String)
    (s : σ) : (Plain.BranchExists srv pid b s).2.2 = [Req.getBranch pid b] := by
  rcases hq : srv s (Req.getBranch pid b) with ⟨o, s0⟩
  cases o with
  | none => simp [Plain.BranchExists, hq]
  | some r =>
    by_cases h200 : r.status = 200
    · simp [Plain.BranchExists, hq, h200]
    · by_cases h404 : r.status = 404 <;> simp [Plain.BranchExists, hq, h200, h404]

/-- Claim C5 (amended): in the conventional-set walker every candidate is
existence-probed first (the probe is the sole request of `BranchExists`),
protection runs only after the probe confirmed the branch, a missing branch
or a per-candidate probe error skips just that candidate while the rest of
the list continues; the default-branch-only variant instead reconciles the
declared default branch directly, issuing no existence probe at all. -/
theorem existence_gate_policy {σ : Type} (srv : Server σ) (pid : Int)
    (push merge : Int) (b : String) (rest : List String) (s : σ) :
    (∀ res s1 tr1, Plain.BranchExists srv pid b s = (res, s1, tr1) →
      tr1 = [Req.getBranch pid b]) ∧
    (∀ s1 tr1, Plain.BranchExists srv pid b s = (.ok true, s1, tr1) →
      Plain.processBranches srv pid push merge (b :: rest) s =
        ((Plain.processBranches srv pid push merge rest
            (Plain.EnsureBranchProtection srv pid b push merge s1).2.1).1,
          tr1 ++ (Plain.EnsureBranchProtection srv pid b push merge s1).2.2 ++
            (Plain.processBranches srv pid push merge rest
              (Plain.EnsureBranchProtection srv pid b push merge s1).2.1).2)) ∧
    (∀ s1 tr1, Plain.BranchExists srv pid b s = (.ok false, s1, tr1) →
      Plain.processBranches srv pid push merge (b :: rest) s =
        ((Plain.processBranches srv pid push merge rest s1).1,
          tr1 ++ (Plain.processBranches srv pid push merge rest s1).2)) ∧
    (∀ e s1 tr1, Plain.BranchExists srv pid b s = (.error e, s1, tr1) →
      Plain.processBranches srv pid push merge (b :: rest) s =
        ((Plain.processBranches srv pid push merge rest s1).1,
          tr1 ++ (Plain.processBranches srv pid push merge rest s1).2)) ∧
    (∀ p : Project, p.defaultBranch ≠ "" →
      (processProjectDefaultOnly srv push merge p s).2 =
        (EnsureBranchProtection srv p.id p.defaultBranch push merge s).2.2 ∧
      ∀ b2 : String,
        Req.getBranch p.id b2 ∉ (processProjectDefaultOnly srv push merge p s).2) := by
  refine ⟨?_, ?_, ?_, ?_, ?_⟩
  · intro res s1 tr1 hB
    have ht := branchExists_trace srv pid b s
    rw [hB] at ht
    exact ht
  · intro s1 tr1 hB
    simp only [Plain.processBranches]
    rw [hB]
  · intro s1 tr1 hB
    simp only [Plain.processBranches]
    rw [hB]
  · intro e s1 tr1 hB
    simp only [Plain.processBranches]
    rw [hB]
  · intro p hp
    refine ⟨by simp [processProjectDefaultOnly, hp], ?_⟩
    intro b2
    simpa [processProjectDefaultOnly, hp] using
      ensure_no_getBranch srv p.id p.defaultBranch push merge s p.id b2

/-- A server whose existence probe answers 404 (branch missing). -/
def c5srv404 : Server Nat := scriptServer [⟨404, ""⟩]

/-- A server whose existence probe answers 500 (probe error). -/
def c5srvErr : Server Nat := scriptServer [⟨500, "x"⟩]

theorem existence_gate_policy_witness :
    ((Plain.BranchExists (gitlabStep true) 1 "main" none).2.2 =
      [Req.getBranch 1 "main"]) ∧
    (Plain.processBranches (gitlabStep true) 1 30 30 ["main"] none =
      ((Plain.processBranches (gitlabStep true) 1 30 30 []
          (Plain.EnsureBranchProtection (gitlabStep true) 1 "main" 30 30 none).2.1).1,
        [Req.getBranch 1 "main"] ++
          (Plain.EnsureBranchProtection (gitlabStep true) 1 "main" 30 30 none).2.2 ++
          (Plain.processBranches (gitlabStep true) 1 30 30 []
            (Plain.EnsureBranchProtection (gitlabStep true) 1 "main" 30 30 none).2.1).2)) ∧
    (Plain.processBranches c5srv404 1 30 30 ["main"] 0 =
      ((Plain.processBranches c5srv404 1 30 30 [] 1).1,
        [Req.getBranch 1 "main"] ++ (Plain.processBranches c5srv404 1 30 30 [] 1).2)) ∧
    (Plain.processBranches c5srvErr 1 30 30 ["main"] 0 =
      ((Plain.processBranches c5srvErr 1 30 30 [] 1).1,
        [Req.getBranch 1 "main"] ++ (Plain.processBranches c5srvErr 1 30 30 [] 1).2)) ∧
    ((processProjectDefaultOnly (gitlabStep true) 30 30 ⟨1, "svc", "dev"⟩ none).2 =
        (EnsureBranchProtection (gitlabStep true) 1 "dev" 30 30 none).2.2 ∧
      Req.getBranch 1 "dev" ∉
        (processProjectDefaultOnly (gitlabStep true) 30 30 ⟨1, "svc", "dev"⟩ none).2) :=
  ⟨(existence_gate_policy (gitlabStep true) 1 30 30 "main" [] none).1 _ _ _ rfl,
    (existence_gate_policy (gitlabStep true) 1 30 30 "main" [] none).2.1 none
      [Req.getBranch 1 "main"] rfl,
    (existence_gate_policy c5srv404 1 30 30 "main" [] 0).2.2.1 1 [Req.getBranch 1 "main"]
      rfl,
    (existence_gate_policy c5srvErr 1 30 30 "main" [] 0).2.2.2.1 (.statusFailed 500 "x") 1
      [Req.getBranch 1 "main"] rfl,
    ⟨((existence_gate_policy (gitlabStep true) 1 30 30 "x" [] none).2.2.2.2
        ⟨1, "svc", "dev"⟩ (by decide)).1,
      ((existence_gate_policy (gitlabStep true) 1 30 30 "x" [] none).2.2.2.2
        ⟨1, "svc", "dev"⟩ (by decide)).2 "dev"⟩⟩

/-- Claim C6: the conventional-set candidate list is exactly
`[default, main, master]` when the declared default branch is non-empty and
neither `main` nor `master`, and exactly `[main, master]` when it is `main`,
`master` or empty. -/
theorem conventional_candidates_exact (d : String) :
    (d ≠ "" → d ≠ "main" → d ≠ "master" →
      Plain.protectedBranchesFor d = [d, "main", "master"]) ∧
    ((d = "main" ∨ d = "master" ∨ d = "") →
      Plain.protectedBranchesFor d = ["main", "master"]) := by
  constructor
  · intro h1 h2 h3
    simp [Plain.protectedBranchesFor, h1, h2, h3]
  · rintro (h | h | h) <;> simp [Plain.protectedBranchesFor, h]

theorem conventional_candidates_exact_witness :
    Plain.protectedBranchesFor "develop" = ["develop", "main", "master"] ∧
    Plain.protectedBranchesFor "main" = ["main", "master"] ∧
    Plain.protectedBranchesFor "" = ["main", "master"] :=
  ⟨(conventional_candidates_exact "develop").1 (by decide) (by decide) (by decide),
    (conventional_candidates_exact "main").2 (Or.inl rfl),
    (conventional_candidates_exact "").2 (Or.inr (Or.inr rfl))⟩

/-! ## Claims about the paginated listers -/

theorem paginate_pagesOf {α : Type} (recs : List α) (P : Nat) (hP : 0 < P) :
    ∀ (fuel p : Nat), 0 < fuel → 0 < p →
      recs.length ≤ (p - 1) * P + fuel * P →
      paginateAux (pagesOf recs P) fuel p =
        (.ok (recs.drop ((p - 1) * P)),
          max 1 (ceilDiv (recs.length - (p - 1) * P) P)) := by
  intro fuel
  induction fuel with
  | zero => intro p hf _ _; exact absurd hf (by omega)
  | succ f ih =>
    intro p _ hp hbound
    have hkP : (p - 1) * P + P = p * P := by
      calc (p - 1) * P + P = (p - 1 + 1) * P := (Nat.succ_mul _ _).symm
        _ = p * P := by rw [Nat.sub_add_cancel hp]
    by_cases hm : recs.length ≤ (p - 1) * P
    · have hdrop : recs.drop ((p - 1) * P) = [] := List.drop_eq_nil_of_le hm
      have hceil : ceilDiv (recs.length - (p - 1) * P) P = 0 := by
        have e : recs.length - (p - 1) * P = 0 := by omega
        rw [e]
        exact Nat.div_eq_of_lt (by omega)
      simp [paginateAux, pagesOf, hdrop, hceil]
    · push_neg at hm
      rcases hchunk : (recs.drop ((p - 1) * P)).take P with _ | ⟨a, tl⟩
      · exfalso
        have hlen := congrArg List.length hchunk
        simp [List.length_take, List.length_drop] at hlen
        omega
      · have hne : ((recs.drop ((p - 1) * P)).take P).isEmpty = false := by
          rw [hchunk]; rfl
        by_cases hlast : recs.length ≤ p * P
        · have hsig : ¬ p * P < recs.length := by omega
          have htake : (recs.drop ((p - 1) * P)).take P = recs.drop ((p - 1) * P) := by
            apply List.take_of_length_le
            rw [List.length_drop]
            omega
          have hone : ceilDiv (recs.length - (p - 1) * P) P = 1 := by
            unfold ceilDiv
            have e : recs.length - (p - 1) * P + P - 1 =
                (recs.length - (p - 1) * P - 1) + P := by omega
            rw [e, Nat.add_div_right _ hP, Nat.div_eq_of_lt (by omega)]
          rw [show max 1 (ceilDiv (recs.length - (p - 1) * P) P) = 1 by omega] at *
          simp [paginateAux, pagesOf, hne, hsig, htake]
        · push_neg at hlast
          have hf0 : 0 < f := by
            rcases Nat.eq_zero_or_pos f with rfl | h
            · exfalso
              rw [Nat.succ_mul, Nat.zero_mul] at hbound
              omega
            · exact h
          have hbound2 : recs.length ≤ ((p + 1) - 1) * P + f * P := by
            rw [Nat.succ_mul] at hbound
            have e : ((p + 1) - 1) * P = p * P := by norm_num
            rw [e]
            omega
          have ihres := ih (p + 1) hf0 (by omega) hbound2
          have e1 : ((p + 1) - 1) * P = p * P := by norm_num
          rw [e1] at ihres
          have hcontent : (recs.drop ((p - 1) * P)).take P ++ recs.drop (p * P) =
              recs.drop ((p - 1) * P) := by
            have e : recs.drop (p * P) = (recs.drop ((p - 1) * P)).drop P := by
              rw [List.drop_drop]
              congr 1
              omega
            rw [e, List.take_append_drop]
          have hcount : max 1 (ceilDiv (recs.length - p * P) P) + 1 =
              max 1 (ceilDiv (recs.length - (p - 1) * P) P) := by
            have hc1 : ceilDiv (recs.length - p * P) P =
                (recs.length - (p - 1) * P - 1) / P := by
              unfold ceilDiv
              congr 1
              omega
            have hc2 : ceilDiv (recs.length - (p - 1) * P) P =
                (recs.length - (p - 1) * P - 1) / P + 1 := by
              unfold ceilDiv
              have e : recs.length - (p - 1) * P + P - 1 =
                  (recs.length - (p - 1) * P - 1) + P := by omega
              rw [e, Nat.add_div_right _ hP]
            have hge1 : 1 ≤ (recs.length - (p - 1) * P - 1) / P := by
              rw [Nat.one_le_div_iff hP]
              omega
            rw [hc1, hc2]
            omega
          have hsig : p * P < recs.length := hlast
          simp only [paginateAux, pagesOf]
          rw [if_pos hsig]
          simp only [hne, Bool.false_eq_true, if_false]
          rw [if_neg (by decide : ¬ ("next" : String) = "")]
          simp only [ihres, Except.map]
          rw [hcontent, hcount]

/-- A server with zero records whose next-page signal is present on every
response. -/
def c7pages : Nat → Option (PageResponse Project) := fun _ => some ⟨200, some [], "next"⟩

/-- Claim C7 counterexample: with N = 0 records (and the next-page signal
present on every response) the lister issues 1 page request, not
ceil(0/P) = 0 — it must probe once to learn the collection is empty. -/
theorem paginate_zero_records_cex :
    (ListProjects c7pages 5).2 = 1 ∧ ceilDiv (([] : List Project)).length 100 = 0 :=
  ⟨rfl, rfl⟩

/-- Claim C7 (amended): against a well-behaved paginated server with N
records and page size P (next-page signal present exactly while records
remain beyond the page), both listers issue exactly max 1 ⌈N/P⌉ page
requests — ⌈N/P⌉ when N ≥ 1 and a single probing request when N = 0 — and
return all records; independently, any page decoding to an empty list ends
the loop at that request even when the next-page signal is present. -/
theorem paginate_request_count :
    (∀ (recs : List Project) (P fuel : Nat), 0 < P → 0 < fuel →
      recs.length ≤ fuel * P →
      ListProjects (pagesOf recs P) fuel = (.ok recs, max 1 (ceilDiv recs.length P))) ∧
    (∀ (recs : List GitGroup) (P fuel : Nat), 0 < P → 0 < fuel →
      recs.length ≤ fuel * P →
      ListSubgroups (pagesOf recs P) fuel = (.ok recs, max 1 (ceilDiv recs.length P))) ∧
    (∀ (α : Type) (pages : Nat → Option (PageResponse α)) (fuel page st : Nat)
      (nxt : String), pages page = some ⟨st, some [], nxt⟩ →
      paginateAux pages (fuel + 1) page = (.ok [], 1)) := by
  refine ⟨?_, ?_, ?_⟩
  · intro recs P fuel hP hf hbound
    have h := paginate_pagesOf recs P hP fuel 1 hf (by omega) (by simpa using hbound)
    simpa using h
  · intro recs P fuel hP hf hbound
    have h := paginate_pagesOf recs P hP fuel 1 hf (by omega) (by simpa using hbound)
    simpa using h
  · intro α pages fuel page st nxt h
    simp [paginateAux, h]

/-- Three projects, for concrete pagination runs. -/
def c7recs : List Project := [⟨1, "a", "main"⟩, ⟨2, "b", "main"⟩, ⟨3, "c", "main"⟩]

theorem paginate_request_count_witness :
    ListProjects (pagesOf c7recs 2) 5 = (.ok c7recs, 2) ∧
    paginateAux c7pages (4 + 1) 7 = (.ok ([] : List Project), 1) :=
  ⟨by rw [paginate_request_count.1 c7recs 2 5 (by decide) (by decide) (by decide)]; rfl,
    paginate_request_count.2.2 Project c7pages 4 7 200 "next" rfl⟩

/-- A server answering every page with HTTP 500 and an empty decodable
array body. -/
def c8pages : Nat → Option (PageResponse Project) := fun _ => some ⟨500, some [], ""⟩

/-- Claim C8 counterexample: the lister never inspects the HTTP status —
page 1 answers 500 (non-2xx), yet the run returns `.ok []` with no error. -/
theorem paginate_ignores_status_cex :
    c8pages 1 = some ⟨500, some [], ""⟩ ∧ 400 ≤ 500 ∧
    ListProjects c8pages 5 = (.ok [], 1) :=
  ⟨rfl, by omega, rfl⟩

/-- Claim C8 (amended): a listing run fails exactly on a transport failure
or a page body that does not decode as a record list — such a page aborts
the whole run with an error that carries no records, also when reached
after earlier successful pages; the HTTP status is never inspected; and an
empty page yields `.ok []` with no error (empty is not a failure). -/
theorem paginate_error_handling :
    (∀ (pages : Nat → Option (PageResponse Project)) (fuel page : Nat),
      pages page = none →
      paginateAux pages (fuel + 1) page = (.error .transport, 1)) ∧
    (∀ (pages : Nat → Option (PageResponse Project)) (fuel page st : Nat) (nxt : String),
      pages page = some ⟨st, none, nxt⟩ →
      paginateAux pages (fuel + 1) page = (.error .decodeFailed, 1)) ∧
    (∀ (pages : Nat → Option (PageResponse Project)) (fuel page st : Nat)
        (recs : List Project) (nxt : String) (e : ListError) (n : Nat),
      pages page = some ⟨st, some recs, nxt⟩ → recs ≠ [] → nxt ≠ "" →
      paginateAux pages fuel (page + 1) = (.error e, n) →
      paginateAux pages (fuel + 1) page = (.error e, n + 1)) ∧
    (∀ (pages : Nat → Option (PageResponse Project)) (fuel page st : Nat) (nxt : String),
      pages page = some ⟨st, some [], nxt⟩ →
      paginateAux pages (fuel + 1) page = (.ok [], 1)) := by
  refine ⟨?_, ?_, ?_, ?_⟩
  · intro pages fuel page h
    simp [paginateAux, h]
  · intro pages fuel page st nxt h
    simp [paginateAux, h]
  · intro pages fuel page st recs nxt e n h hrecs hnxt htail
    have hne : recs.isEmpty = false := by
      cases recs with
      | nil => exact absurd rfl hrecs
      | cons a tl => rfl
    simp [paginateAux, h, hne, hnxt, htail, Except.map]
  · intro pages fuel page st nxt h
    simp [paginateAux, h]

/-- One good page followed by a transport failure, to exercise mid-run
abort. -/
def c8prop : Nat → Option (PageResponse Project) := fun n =>
  if n = 1 then some ⟨200, some [⟨1, "a", "main"⟩], "next"⟩ else none

theorem paginate_error_handling_witness :
    paginateAux (fun _ => (none : Option (PageResponse Project))) (3 + 1) 1 =
      (.error .transport, 1) ∧
    paginateAux (fun _ => some (⟨200, (none : Option (List Project)), ""⟩ : PageResponse Project))
      (3 + 1) 1 = (.error .decodeFailed, 1) ∧
    paginateAux c8prop (1 + 1) 1 = (.error .transport, 1 + 1) ∧
    paginateAux c8pages (3 + 1) 2 = (.ok [], 1) :=
  ⟨paginate_error_handling.1 _ 3 1 rfl,
    paginate_error_handling.2.1 _ 3 1 200 "" rfl,
    paginate_error_handling.2.2.1 c8prop 1 1 200 [⟨1, "a", "main"⟩] "next" .transport 1
      rfl (by decide) (by decide) rfl,
    paginate_error_handling.2.2.2 c8pages 3 2 500 "" rfl⟩

/-! ## Claims about the group walker -/

theorem visitedIds_append (a b : List WEvent) :
    visitedIds (a ++ b) = visitedIds a ++ visitedIds b := by
  simp [visitedIds, List.filterMap_append]

theorem visitedIds_nil : visitedIds [] = [] := rfl

theorem visitedIds_cons_visit (i : Int) (evs : List WEvent) :
    visitedIds (WEvent.visit i :: evs) = i :: visitedIds evs := rfl

theorem visitedIds_cons_projectsError (i : Int) (evs : List WEvent) :
    visitedIds (WEvent.projectsError i :: evs) = visitedIds evs := rfl

theorem visitedIds_cons_subgroupsError (i : Int) (evs : List WEvent) :
    visitedIds (WEvent.subgroupsError i :: evs) = visitedIds evs := rfl

theorem visitedIds_cons_enterSubgroup (i : Int) (evs : List WEvent) :
    visitedIds (WEvent.enterSubgroup i :: evs) = visitedIds evs := rfl

theorem visitedIds_map_api (tr : List Req) : visitedIds (tr.map WEvent.api) = [] := by
  induction tr with
  | nil => rfl
  | cons q qs ih => simp [visitedIds, List.filterMap_cons]

mutual
theorem visited_processGroup {σ : Type} (srv : Server σ) (push merge : Int)
    (t : GroupTree) (s : σ) :
    visitedIds (Plain.processGroup srv push merge t s).2 = visitedTree t := by
  cases t with
  | node g projs subsErr gs =>
    cases subsErr with
    | some e =>
      cases projs with
      | error e2 =>
        simp [Plain.processGroup, visitedTree, visitedIds_append, visitedIds_cons_visit,
          visitedIds_cons_projectsError, visitedIds_cons_subgroupsError, visitedIds_nil]
      | ok ps =>
        simp [Plain.processGroup, visitedTree, visitedIds_append, visitedIds_cons_visit,
          visitedIds_map_api, visitedIds_cons_subgroupsError, visitedIds_nil]
    | none =>
      cases projs with
      | error e2 =>
        simp [Plain.processGroup, visitedTree, visitedIds_append, visitedIds_cons_visit,
          visitedIds_cons_projectsError, visited_processForest srv push merge gs]
      | ok ps =>
        simp [Plain.processGroup, visitedTree, visitedIds_append, visitedIds_cons_visit,
          visitedIds_map_api, visited_processForest srv push merge gs]

theorem visited_processForest {σ : Type} (srv : Server σ) (push merge : Int)
    (f : GroupForest) (s : σ) :
    visitedIds (Plain.processForest srv push merge f s).2 = visitedForest f := by
  cases f with
  | nil => rfl
  | cons t ts =>
    simp [Plain.processForest, visitedForest, visitedIds_append,
      visitedIds_cons_enterSubgroup, visited_processGroup srv push merge t,
      visited_processForest srv push merge ts]
end

theorem visitedForest_append (a b : GroupForest) :
    visitedForest (forestAppend a b) = visitedForest a ++ visitedForest b := by
  cases a with
  | nil => rfl
  | cons t ts => simp [forestAppend, visitedForest, visitedForest_append ts b]

/-- Claim C9: a failure listing a group's projects does not stop the walk —
the walker still visits the whole subgroup forest below that group; a
failure listing a group's subgroups ends exactly that group's subtree (the
group itself is still processed); and within any forest the subtree reached
below each sibling is unaffected by what happens inside another sibling —
the visited set decomposes per sibling. -/
theorem walker_failure_isolation {σ : Type} (srv : Server σ) (push merge : Int)
    (g : GitGroup) (e : RulerError) (projs : Except RulerError (List Project))
    (gs : GroupForest) (s : σ) (xs ys : GroupForest) (t : GroupTree) :
    (visitedIds (Plain.processGroup srv push merge (.node g (.error e) none gs) s).2 =
      g.id :: visitedForest gs) ∧
    (visitedIds (Plain.processGroup srv push merge (.node g projs (some e) gs) s).2 =
      [g.id]) ∧
    (visitedIds (Plain.processForest srv push merge
        (forestAppend xs (GroupForest.cons t ys)) s).2 =
      visitedForest xs ++ (visitedTree t ++ visitedForest ys)) := by
  refine ⟨?_, ?_, ?_⟩
  · rw [visited_processGroup]; rfl
  · rw [visited_processGroup]; rfl
  · rw [visited_processForest, visitedForest_append]; rfl

/-! ## Claim about the verification step -/

/-- Claim C10: `protectionHasLevel` answers exactly "does the raw response
body contain `"access_level":level`" — the HTTP status is ignored and any
non-transport response yields `.ok`, never an error, so a 404 or 5xx body
simply reads as `false`; the scan cannot tell fields apart, so a body whose
merge level alone equals the probed level reads as `true`; and inside the
reconciler a `false` verification routes the run to the hard
delete-and-recreate step. -/
theorem protectionHasLevel_spec {σ : Type} (srv : Server σ) (pid : Int)
    (branch : String) (level : Int) (s : σ) (r : HttpResult) (s1 : σ)
    (h : srv s (Req.get pid branch) = (some r, s1)) :
    (protectionHasLevel srv pid branch level s =
      (.ok (strContains r.body (accessLevelPattern level)), s1, [Req.get pid branch])) ∧
    (strContains (renderProtection ⟨30, 40⟩) (accessLevelPattern 40) = true ∧
      (30 : Int) ≠ 40) ∧
    (∀ (push merge : Int) (r1 : HttpResult) (sa : σ) (r2 : HttpResult) (sb : σ)
        (r3 : HttpResult) (sc : σ),
      srv s (Req.post pid ⟨branch, push, merge⟩) = (some r1, sa) → r1.status = 409 →
      srv sa (Req.patch pid branch ⟨branch, push, merge⟩) = (some r2, sb) →
      r2.status < 400 →
      srv sb (Req.get pid branch) = (some r3, sc) →
      strContains r3.body (accessLevelPattern push) = false →
      EnsureBranchProtection srv pid branch push merge s =
        ((deleteAndRecreateProtection srv pid branch ⟨branch, push, merge⟩ sc).1,
          (deleteAndRecreateProtection srv pid branch ⟨branch, push, merge⟩ sc).2.1,
          Req.post pid ⟨branch, push, merge⟩ ::
            Req.patch pid branch ⟨branch, push, merge⟩ :: Req.get pid branch ::
            (deleteAndRecreateProtection srv pid branch ⟨branch, push, merge⟩ sc).2.2)) := by
  refine ⟨by simp [protectionHasLevel, h], ⟨?_, by decide⟩, ?_⟩
  · have hc : strContains (renderProtection ⟨30, 40⟩) (accessLevelPattern 40) = true :=
      render_contains_merge ⟨30, 40⟩
    exact hc
  · intro push merge r1 sa r2 sb r3 sc h1 h409 h2 hlt h3 hv
    have hne : r1.status ≠ 201 := by omega
    simp [EnsureBranchProtection, protectionHasLevel, h1, h409, hne, h2, hlt, h3, hv]

theorem protectionHasLevel_spec_witness :
    (protectionHasLevel (gitlabStep false) 1 "main" 30 (some ⟨10, 20⟩) =
      (.ok (strContains (renderProtection ⟨10, 20⟩) (accessLevelPattern 30)),
        some ⟨10, 20⟩, [Req.get 1 "main"])) ∧
    EnsureBranchProtection (gitlabStep false) 1 "main" 30 40 (some ⟨10, 20⟩) =
      ((deleteAndRecreateProtection (gitlabStep false) 1 "main" ⟨"main", 30, 40⟩
          (some ⟨10, 20⟩)).1,
        (deleteAndRecreateProtection (gitlabStep false) 1 "main" ⟨"main", 30, 40⟩
          (some ⟨10, 20⟩)).2.1,
        Req.post 1 ⟨"main", 30, 40⟩ :: Req.patch 1 "main" ⟨"main", 30, 40⟩ ::
          Req.get 1 "main" ::
          (deleteAndRecreateProtection (gitlabStep false) 1 "main" ⟨"main", 30, 40⟩
            (some ⟨10, 20⟩)).2.2) :=
  ⟨(protectionHasLevel_spec (gitlabStep false) 1 "main" 30 (some ⟨10, 20⟩)
      ⟨200, renderProtection ⟨10, 20⟩⟩ (some ⟨10, 20⟩) rfl).1,
    (protectionHasLevel_spec (gitlabStep false) 1 "main" 30 (some ⟨10, 20⟩)
      ⟨200, renderProtection ⟨10, 20⟩⟩ (some ⟨10, 20⟩) rfl).2.2 30 40
      ⟨409, "Protected branch already exists"⟩ (some ⟨10, 20⟩) ⟨200, ""⟩
      (some ⟨10, 20⟩) ⟨200, renderProtection ⟨10, 20⟩⟩ (some ⟨10, 20⟩)
      rfl rfl rfl (by decide) rfl (by decide)⟩
